import Mathlib

/-!
Verification of the Mercurial 1.7.5 storage-engine specification against the
source shipped under `src/bin/mercurial-1.7.5`.  Python functions are shallowly
embedded as executable Lean definitions; stateful operations become explicit
event traces or state-passing functions; fallible code returns `Except`.
Where a deciding module of the repository is not shipped (only its callers
are), the missing part is modelled from the specification text and the doc
comment says so.
-/

namespace Hg

/-! ## Lock and strip event traces (hgext/mq.py, mercurial/commands.py)

`queue.strip` (mq.py lines 909-928) and `import_` (commands.py lines
2355-2382) are embedded as the sequence of lock / store events they perform,
in source order. -/

inductive Event where
  | wlockAcquire
  | lockAcquire
  | lockRelease
  | wlockRelease
  | cleanUpdate
  | dirstateWrite
  | removeUndo
  | backupBundle (rev : Nat)
  | truncate (rev : Nat)
  | applyPatchHunk
  deriving DecidableEq, Repr

/-- Modelled from the spec: `mercurial/repair.py` (the body of
`repair.strip`) is not under `src/`; §3.3 says a strip is "always bundled as
a backup" before the suffix of the revlog is physically removed.  So one
`repair.strip(ui, repo, rev, backup)` call is the backup-bundle write followed
by the physical truncation. -/
def repairStripEvents (rev : Nat) : List Event :=
  [Event.backupBundle rev, Event.truncate rev]

/-- Embedding of `queue.strip` (mq.py 909-928): acquire `wlock`, then `lock`;
optionally clean-update the working directory and write the dirstate; drop the
undo data; run `repair.strip` for each revision; drop undo data again;
`release(lock, wlock)` releases the store lock first, then the wlock. -/
def queueStripTrace (revs : List Nat) (update : Bool) : List Event :=
  [Event.wlockAcquire, Event.lockAcquire]
    ++ (if update then [Event.cleanUpdate, Event.dirstateWrite] else [])
    ++ [Event.removeUndo]
    ++ (revs.map repairStripEvents).flatten
    ++ [Event.removeUndo]
    ++ [Event.lockRelease, Event.wlockRelease]

/-- Embedding of the lock discipline of `import_` (commands.py 2355-2382):
`wlock = repo.wlock(); lock = repo.lock()`, apply the patch hunks, then
`release(lock, wlock)`. -/
def importTrace (hunks : Nat) : List Event :=
  [Event.wlockAcquire, Event.lockAcquire]
    ++ List.replicate hunks Event.applyPatchHunk
    ++ [Event.lockRelease, Event.wlockRelease]

/-- Modelled from the spec: `mercurial/lock.py` is not under `src/`.  §3.2
invariant 8 / §4.4: a lock file has at most one holder and an acquisition
succeeds only when nobody currently holds the lock. -/
def lockTryAcquire (holder : Option String) (me : String) : Option (Option String) :=
  match holder with
  | none => some (some me)
  | some _ => none

/-- Interpreter used to check the strip claim: it walks a trace tracking which
locks are held and which revisions have been written to a backup bundle, and
`ok` goes false if any truncation happens without both locks held and a prior
backup of that revision. -/
structure StripState where
  wlockHeld : Bool
  lockHeld : Bool
  backedUp : List Nat
  ok : Bool
  deriving Repr

def stripStep (s : StripState) (e : Event) : StripState :=
  match e with
  | Event.wlockAcquire => { s with wlockHeld := true }
  | Event.lockAcquire => { s with lockHeld := true }
  | Event.lockRelease => { s with lockHeld := false }
  | Event.wlockRelease => { s with wlockHeld := false }
  | Event.backupBundle r => { s with backedUp := r :: s.backedUp }
  | Event.truncate r =>
      { s with ok := s.ok && s.wlockHeld && s.lockHeld && s.backedUp.contains r }
  | _ => s

def stripCheck (tr : List Event) : Bool :=
  (tr.foldl stripStep ⟨false, false, [], true⟩).ok

/-! ## `merge` target selection (mercurial/commands.py 2612-2643)

The branch of `commands.merge` that runs when no revision argument is given.
`bheads` is `repo.branchheads(branch)`, `allHeads` is `len(repo.heads())`,
`parent` is `repo.dirstate.parents()[0]`, `branchTip` is
`repo.lookup(repo[None].branch())`.  On the success path the source reads
`node = parent == bheads[0] and bheads[-1] or bheads[0]`; the `headD`/
`getLastD` defaults are unreachable there because that path implies
`parent ∈ bheads`, hence `bheads ≠ []`. -/
def mergeFindNode (bheads : List String) (allHeads : Nat) (parent : String)
    (branchTip : String) : Except String String :=
  if bheads.length > 2 then
    Except.error "branch has too many heads - please merge with an explicit rev"
  else if bheads.length == 1 then
    if allHeads > 1 then
      Except.error "branch has one head - please merge with an explicit rev"
    else if parent != branchTip then
      Except.error "there is nothing to merge - use hg update instead"
    else
      Except.error "there is nothing to merge"
  else if !(bheads.contains parent) then
    Except.error "working dir not at a head rev - use hg update or merge with an explicit rev"
  else
    Except.ok (if parent == bheads.headD "" then bheads.getLastD "" else bheads.headD "")

/-! ## Dispatcher error handling (mercurial/dispatch.py, `_runcatch`, 38-182)

Each exception the dispatcher catches becomes a constructor carrying the
fields the handler reads.  `runcatch` returns the list of strings written by
`ui.warn`/`sys.stderr` (in order) and the return value: `some c` when the
handler returns code `c`, `none` when the handler re-raises (the bare `raise`
arms).  `commands.help_` output (printed after some usage errors) is
represented by the fixed marker string `helpMarker`. -/

inductive HgErr where
  | ambiguousCommand (cmd : String) (cands : List String)
  | parseErr (loc : Option String) (msg : String)
  | lockHeld (timedout : Bool) (desc : String) (locker : String)
  | lockUnavailable (desc : String) (strerror : String)
  | commandErr (cmd : Option String) (msg : String)
  | repoErr (msg : String)
  | responseErr (msg : String) (isString : Bool) (payload : String)
  | revlogErr (msg : String)
  | signalInterrupt
  | unknownCommand (cmd : String)
  | abort (msg : String) (hint : Option String)
  | importErr (msg : String)
  | ioErrHttpCode (msg : String)
  | ioErrReason (reason : String)
  | ioErrEpipe
  | ioErrStrerror (strerror : String) (filename : Option String)
  | ioErrOther
  | osErr (strerror : String) (filename : Option String)
  | keyboardInterrupt
  | memoryErr
  | systemExit (code : Int)
  | socketErr (msg : String)
  deriving DecidableEq, Repr

def helpMarker : String := "<help output>"

def ellipsis (s : String) : String := s

/-- Python `s.split()`: split on whitespace, dropping empty pieces. -/
def pySplit (s : String) : List String :=
  (s.split Char.isWhitespace).filter (fun p => p != "")

/-- `_runcatch` (dispatch.py 38-182), restricted to the global exception
handling block: the warn output and the return code for each caught
exception; handled exceptions fall through to `return -1` unless the handler
returns explicitly.  `debugflag` is `ui.debugflag`.  The one elision: the
KeyboardInterrupt handler's nested IOError case (dispatch.py 153-159), which
concerns the warning write itself failing with EPIPE, is not modelled. -/
def runcatch (r : Except HgErr Int) (debugflag : Bool) : List String × Option Int :=
  match r with
  | Except.ok code => ([], some code)
  | Except.error e =>
    match e with
    | HgErr.ambiguousCommand cmd cands =>
        (["hg: command " ++ cmd ++ " is ambiguous:\n    " ++
            String.intercalate " " cands ++ "\n"], some (-1))
    | HgErr.parseErr loc msg =>
        match loc with
        | some l => (["hg: parse error at " ++ l ++ ": " ++ msg ++ "\n"], some (-1))
        | none => (["hg: parse error: " ++ msg ++ "\n"], some (-1))
    | HgErr.lockHeld timedout desc locker =>
        let reason := if timedout then
            "timed out waiting for lock held by " ++ locker
          else "lock held by " ++ locker
        (["abort: " ++ desc ++ ": " ++ reason ++ "\n"], some (-1))
    | HgErr.lockUnavailable desc strerror =>
        (["abort: could not lock " ++ desc ++ ": " ++ strerror ++ "\n"], some (-1))
    | HgErr.commandErr cmd msg =>
        match cmd with
        | some c => (["hg " ++ c ++ ": " ++ msg ++ "\n", helpMarker], some (-1))
        | none => (["hg: " ++ msg ++ "\n", helpMarker], some (-1))
    | HgErr.repoErr msg => (["abort: " ++ msg ++ "!\n"], some (-1))
    | HgErr.responseErr msg isString payload =>
        if !isString then
          (["abort: " ++ msg, " " ++ payload ++ "\n"], some (-1))
        else if payload == "" then
          (["abort: " ++ msg, " empty string\n"], some (-1))
        else
          (["abort: " ++ msg, "\n" ++ ellipsis payload ++ "\n"], some (-1))
    | HgErr.revlogErr msg => (["abort: " ++ msg ++ "!\n"], some (-1))
    | HgErr.signalInterrupt => (["killed!\n"], some (-1))
    | HgErr.unknownCommand cmd =>
        (["hg: unknown command " ++ cmd ++ "\n", helpMarker], some (-1))
    | HgErr.abort msg hint =>
        match hint with
        | some h => (["abort: " ++ msg ++ "\n", "(" ++ h ++ ")\n"], some (-1))
        | none => (["abort: " ++ msg ++ "\n"], some (-1))
    | HgErr.importErr msg =>
        let m := (pySplit msg).getLastD ""
        (["abort: " ++ msg ++ "!\n"] ++
          (if ["mpatch", "bdiff"].contains m then
            ["(did you forget to compile extensions?)\n"]
          else if ["zlib"].contains m then
            ["(is your Python install correct?)\n"]
          else []), some (-1))
    | HgErr.ioErrHttpCode msg => (["abort: " ++ msg ++ "\n"], some (-1))
    | HgErr.ioErrReason reason => (["abort: error: " ++ reason ++ "\n"], some (-1))
    | HgErr.ioErrEpipe =>
        if debugflag then (["broken pipe\n"], some (-1)) else ([], some (-1))
    | HgErr.ioErrStrerror strerror filename =>
        match filename with
        | some f => (["abort: " ++ strerror ++ ": " ++ f ++ "\n"], some (-1))
        | none => (["abort: " ++ strerror ++ "\n"], some (-1))
    | HgErr.ioErrOther => ([], none)
    | HgErr.osErr strerror filename =>
        match filename with
        | some f => (["abort: " ++ strerror ++ ": " ++ f ++ "\n"], some (-1))
        | none => (["abort: " ++ strerror ++ "\n"], some (-1))
    | HgErr.keyboardInterrupt => (["interrupted!\n"], some (-1))
    | HgErr.memoryErr => (["abort: out of memory\n"], some (-1))
    | HgErr.systemExit code => ([], some code)
    | HgErr.socketErr msg => (["abort: " ++ msg ++ "\n"], some (-1))

/-- The tail of `commands.commit` (commands.py 780-783): when
`cmdutil.commit` produced no node, print "nothing changed" and return the
benign failure code 1; otherwise fall through (success, return `None`,
which the dispatcher maps to exit 0). -/
def commitResult (node : Option String) : List String × Int :=
  match node with
  | none => (["nothing changed\n"], 1)
  | some _ => ([], 0)

/-- Modelled from the spec: `mercurial/lock.py` is not under `src/`.
§4.4/§5: acquisition is a bounded retry with exponential backoff; when the
timeout elapses while a holder is present, it raises the distinct
lock-timeout error (`LockHeld` with `errno == ETIMEDOUT`) carrying the
current holder.  `holder` is the (unchanging) owner of the contended lock,
`remaining` the seconds left of the timeout budget, `delay` the current
backoff step. -/
def acquireLock (holder : Option String) (desc : String) :
    Nat → Nat → Except HgErr Unit
  | remaining, delay =>
    match holder with
    | none => Except.ok ()
    | some who =>
      if remaining == 0 then Except.error (HgErr.lockHeld true desc who)
      else acquireLock holder desc (remaining - max 1 delay) (2 * delay)
  termination_by remaining _ => remaining
  decreasing_by
    simp only [Nat.beq_eq_true_eq] at *
    omega

/-! ## Mergestate and the `resolve` command (mercurial/commands.py 2969-3053)

`mergemod.mergestate` lives in `mercurial/merge.py`, which is not under
`src/`; its per-path status store and `resolve` method are modelled from the
spec (§4.6): status is `u` (unresolved) or `r` (resolved), `mark` sets it,
and a path moves to resolved on a successful merge-tool invocation. -/

inductive RStatus where
  | unresolved
  | resolved
  deriving DecidableEq, Repr

/-- The mergestate: per-path resolution records in file order. -/
abbrev MergeState := List (String × RStatus)

def msLookup (ms : MergeState) (f : String) : Option RStatus :=
  match ms.find? (fun p => p.1 == f) with
  | some p => some p.2
  | none => none

/-- Modelled from the spec: `mergestate.mark(f, status)` sets the recorded
status of `f`. -/
def msMark (ms : MergeState) (f : String) (s : RStatus) : MergeState :=
  ms.map (fun p => if p.1 == f then (p.1, s) else p)

/-- Modelled from the spec: `mergestate.resolve(f, wctx, octx)` re-runs the
merge tool for `f`; on success (`toolOk f`) the path is marked resolved and
0 is returned, otherwise the status is unchanged and a non-zero result is
returned.  A path already resolved is left alone (re-merge is skipped). -/
def msResolve (toolOk : String → Bool) (ms : MergeState) (f : String) :
    MergeState × Nat :=
  match msLookup ms f with
  | some RStatus.resolved => (ms, 0)
  | _ => if toolOk f then (msMark ms f RStatus.resolved, 0) else (ms, 1)

/-- The three mutating modes of `commands.resolve`: `--mark`, `--unmark`, or
re-merge (the default).  (`--list` only prints.) -/
inductive ResolveMode where
  | markMode
  | unmarkMode
  | remergeMode
  deriving DecidableEq, Repr

/-- One iteration of the loop of `commands.resolve` (commands.py 3020-3052)
on a file `f` of the mergestate: if the match accepts `f`, either mark it
resolved (`--mark`), mark it unresolved (`--unmark`), or re-run the merge
tool, recording failure in the return value. -/
def resolveStep (m : String → Bool) (mode : ResolveMode) (toolOk : String → Bool)
    (acc : MergeState × Nat) (f : String) : MergeState × Nat :=
  if m f then
    match mode with
    | ResolveMode.markMode => (msMark acc.1 f RStatus.resolved, acc.2)
    | ResolveMode.unmarkMode => (msMark acc.1 f RStatus.unresolved, acc.2)
    | ResolveMode.remergeMode =>
        let r := msResolve toolOk acc.1 f
        (r.1, if r.2 != 0 then 1 else acc.2)
  else acc

/-- The loop of `commands.resolve`: fold `resolveStep` over the files of the
mergestate; `ret` starts at 0.  Returns the final mergestate and the command
return value. -/
def resolveCmd (m : String → Bool) (mode : ResolveMode) (toolOk : String → Bool)
    (ms : MergeState) : MergeState × Nat :=
  (ms.map Prod.fst).foldl (resolveStep m mode toolOk) (ms, 0)

/-- Modelled from the spec: `localrepo.commit` is not under `src/`; §4.6 says
"A commit is refused while any path is `unresolved`". -/
def commitAllowed (ms : MergeState) : Bool :=
  !(ms.any (fun p => p.2 == RStatus.unresolved))

/-! ## DAG heads and the `heads` command (mercurial/commands.py 1786-1858)

`repo.heads()` bottoms out in `revlog.heads`, and `mercurial/revlog.py` is
not under `src/`; the DAG operation is modelled from the spec (§4.5): "heads:
revisions with no child; result ordered by descending rev".  A repository DAG
is its parent table: entry `r` holds the (optional) parent revisions of
revision `r`. -/

abbrev ParentTable := List (Option Nat × Option Nat)

def hasChild (ps : ParentTable) (r : Nat) : Bool :=
  ps.any (fun pr => pr.1 == some r || pr.2 == some r)

/-- Modelled from the spec: `heads()` — the revisions with no child, in
descending revision order. -/
def dagHeads (ps : ParentTable) : List Nat :=
  ((List.range ps.length).filter (fun r => !hasChild ps r)).reverse

/-- The `--topo` path of `commands.heads` (commands.py 1812-1818, 1850-1858)
with no branchrevs and `--closed` irrelevant (no branch closing data in the
DAG model): take `repo.heads()`; if the list is empty return 1 printing
nothing, else print the heads sorted by descending rev and return 0. -/
def headsCmd (ps : ParentTable) : List Nat × Nat :=
  let hs := dagHeads ps
  if hs.isEmpty then ([], 1)
  else (hs.mergeSort (fun a b => b ≤ a), 0)

/-! ## The `bundle` command and compression wrappers (commands.py 627-633)

`changegroup.bundletypes` and `changegroup.writebundle` live in
`mercurial/changegroup.py`, not under `src/`; they are modelled from the
spec (§4.7/§6.3): the recognised wrappers are exactly `HG10UN`, `HG10BZ`,
`HG10GZ`, and `writebundle` emits the wrapper name itself as the magic
header of the bundle file. -/

def bundletypes : List String := ["HG10UN", "HG10BZ", "HG10GZ"]

/-- Modelled from the spec: the magic that `writebundle` puts at the start of
a bundle file is the wrapper name. -/
def bundleHeader (bt : String) : String := bt

/-- The `btypes` table of `commands.bundle` (line 628). -/
def btypes (t : String) : Option String :=
  if t == "none" then some "HG10UN"
  else if t == "bzip2" then some "HG10BZ"
  else if t == "gzip" then some "HG10GZ"
  else none

/-- Python `s.lower()` on ASCII strings. -/
def pyLower (s : String) : String :=
  String.mk (s.data.map Char.toLower)

/-- The compression-selection tail of `commands.bundle` (lines 627-633):
`opts.get('type', 'bzip2')`, lower-case it, translate through `btypes`, and
abort when the result is not a recognised bundle type. -/
def bundleCmd (typeOpt : Option String) : Except String String :=
  let t := pyLower (typeOpt.getD "bzip2")
  match btypes t with
  | some bt =>
      if bundletypes.contains bt then Except.ok bt
      else Except.error "unknown bundle type specified with --type"
  | none => Except.error "unknown bundle type specified with --type"

/-! ## Pushkey and `debugpushkey` (commands.py 1105-1119)

`mercurial/pushkey.py` is not under `src/`; `push` is modelled from the spec
(§4.9): a typed `(namespace, key) → value` store with compare-and-swap
semantics.  A pushkey store maps a namespace and key to an optional value. -/

abbrev PushkeyStore := String → String → Option String

/-- Modelled from the spec: `push(ns, key, old, new) → bool` sets the key to
`new` iff its current value equals `old`, and reports whether the swap
happened. -/
def pushkeyPush (store : PushkeyStore) (ns key old new : String) :
    Bool × PushkeyStore :=
  if store ns key == some old then
    (true, fun n k => if n == ns && k == key then some new else store n k)
  else
    (false, store)

/-- `commands.debugpushkey` with five args (commands.py 1115-1119):
`r = target.pushkey(...); ui.status(str(r)); return not(r)` — so the printed
line reports the boolean and the command returns 0 exactly on success. -/
def debugpushkeyCmd (store : PushkeyStore) (ns key old new : String) :
    String × Nat × PushkeyStore :=
  let r := pushkeyPush store ns key old new
  (if r.1 then "True\n" else "False\n", (if r.1 then 0 else 1), r.2)

/-! ## The acl hook (hgext/acl.py)

`_usermatch`, `_getusers`, `buildmatch` and `hook` are embedded directly.
Config access is a value: a section is `none` when absent
(`ui.has_section`), otherwise the ordered `(pattern, users)` items;
`[acl.groups]` is a function giving `configlist` (empty when unset) and
`osGroups` stands for `util.groupmembers` (`none` = KeyError).  The errors
the hook can raise are kept apart by constructor; the two file aborts print
the same abort message in the source but are preceded by distinct
`ui.debug` lines (`denied on` vs `not allowed on`). -/

inductive AclErr where
  | groupUndefined (g : String)
  | branchDeny (user branch : String)
  | branchNotAllowed (user branch : String)
  | fileDeny (user f : String)
  | fileNotAllowed (user f : String)
  deriving DecidableEq, Repr

/-- `_getusers` (acl.py 155-167): users of a group, from `[acl.groups]`
first, else from the OS group database, else abort. -/
def aclGetusers (groups : String → List String)
    (osGroups : String → Option (List String)) (g : String) :
    Except AclErr (List String) :=
  if !(groups g).isEmpty then Except.ok (groups g)
  else
    match osGroups g with
    | some us => Except.ok us
    | none => Except.error (AclErr.groupUndefined g)

/-- The loop of `_usermatch`: `user == ug or ug.find('@') == 0 and user in
_getusers(ui, ug[1:])`, returning at the first match. -/
def usermatchGo (gu : String → Except AclErr (List String)) (user : String) :
    List String → Except AclErr Bool
  | [] => Except.ok false
  | ug :: rest =>
    if user == ug then Except.ok true
    else if ug.startsWith "@" then do
      let us ← gu (ug.drop 1)
      if us.contains user then pure true else usermatchGo gu user rest
    else usermatchGo gu user rest

/-- `_usermatch` (acl.py 169-178): `'*'` matches every user; otherwise the
comma/whitespace-separated entries are tried in order. -/
def usermatch (gu : String → Except AclErr (List String)) (user : String)
    (usersorgroups : String) : Except AclErr Bool :=
  if usersorgroups == "*" then Except.ok true
  else usermatchGo gu user (pySplit (usersorgroups.replace "," " "))

/-- The list comprehension of `buildmatch`: the patterns of the section
whose user list matches `user`. -/
def aclPats (gu : String → Except AclErr (List String)) (user : String) :
    List (String × String) → Except AclErr (List String)
  | [] => Except.ok []
  | (pat, users) :: rest => do
    let b ← usermatch gu user users
    let tail ← aclPats gu user rest
    pure (if b then pat :: tail else tail)

/-- `buildmatch` with `repo=None` (the two branch sections, acl.py 180-194):
absent section gives no matcher; otherwise a branch matches when it or `'*'`
is among the enabled patterns (and an empty pattern list matches nothing). -/
def buildmatchBranch (gu : String → Except AclErr (List String)) (user : String)
    (sec : Option (List (String × String))) :
    Except AclErr (Option (String → Bool)) :=
  match sec with
  | none => Except.ok none
  | some items => do
    let pats ← aclPats gu user items
    if !pats.isEmpty then
      pure (some (fun b => pats.contains "*" || pats.contains b))
    else
      pure (some (fun _ => false))

/-- `buildmatch` with a repo (the two file sections, acl.py 195-198).
Modelled from the spec for the part outside `src/`: `mercurial/match.py` is
missing, and §4.8 specifies a matcher as a pure predicate where a path
matches when any include pattern matches, so `match.match(root, t, pats)` is
`fun f => pats.any (patMatch f)` with `patMatch` the pattern semantics,
and `match.exact(root, t, [])` matches nothing. -/
def buildmatchFile (gu : String → Except AclErr (List String)) (user : String)
    (patMatch : String → String → Bool)
    (sec : Option (List (String × String))) :
    Except AclErr (Option (String → Bool)) :=
  match sec with
  | none => Except.ok none
  | some items => do
    let pats ← aclPats gu user items
    if !pats.isEmpty then
      pure (some (fun f => pats.any (fun p => patMatch p f)))
    else
      pure (some (fun _ => false))

/-- A changeset as the hook sees it: its branch and the files it touches. -/
structure Ctx where
  branch : String
  files : List String
  deriving Repr

def optMatches (m : Option (String → Bool)) (x : String) : Bool :=
  match m with
  | some f => f x
  | none => false

/-- The per-file loop of `hook` (acl.py 245-251): `deny` first, then
`allow`, aborting on the first file that fails. -/
def aclCheckFiles (deny allow : Option (String → Bool)) (user : String) :
    List String → Except AclErr Unit
  | [] => Except.ok ()
  | f :: rest =>
    if optMatches deny f then Except.error (AclErr.fileDeny user f)
    else if (match allow with | some a => !(a f) | none => false) then
      Except.error (AclErr.fileNotAllowed user f)
    else aclCheckFiles deny allow user rest

/-- The per-changeset body of `hook` (acl.py 231-251): deny-branches, then
allow-branches, then the file loop. -/
def aclCheckCtx (denyB allowB deny allow : Option (String → Bool))
    (user : String) (ctx : Ctx) : Except AclErr Unit :=
  if optMatches denyB ctx.branch then
    Except.error (AclErr.branchDeny user ctx.branch)
  else if (match allowB with | some a => !(a ctx.branch) | none => false) then
    Except.error (AclErr.branchNotAllowed user ctx.branch)
  else aclCheckFiles deny allow user ctx.files

/-- The revision loop of `hook` (acl.py 229-251). -/
def aclCheckRevs (denyB allowB deny allow : Option (String → Bool))
    (user : String) : List Ctx → Except AclErr Unit
  | [] => Except.ok ()
  | ctx :: rest =>
    match aclCheckCtx denyB allowB deny allow user ctx with
    | Except.ok _ => aclCheckRevs denyB allowB deny allow user rest
    | Except.error e => Except.error e

/-- The whole `hook` after the hooktype/source/user preamble (acl.py
224-251): build the four matchers in source order, then check every incoming
changeset. -/
def aclHook (groups : String → List String)
    (osGroups : String → Option (List String))
    (patMatch : String → String → Bool) (user : String)
    (allowBranchesSec denyBranchesSec allowSec denySec :
      Option (List (String × String)))
    (ctxs : List Ctx) : Except AclErr Unit := do
  let gu := aclGetusers groups osGroups
  let allowbranches ← buildmatchBranch gu user allowBranchesSec
  let denybranches ← buildmatchBranch gu user denyBranchesSec
  let allow ← buildmatchFile gu user patMatch allowSec
  let deny ← buildmatchFile gu user patMatch denySec
  aclCheckRevs denybranches allowbranches deny allow user ctxs

/-! ## Theorems -/

/-- C1 counterexample: the claim (and §3.2 invariant 8) says the store lock
is acquired before the working-directory lock when both are needed; but in
the embedded `queue.strip` trace the store-lock acquisition does not precede
the wlock acquisition — `queue.strip` takes `wlock` first. -/
theorem C1_store_lock_first_counterexample :
    ¬ ((queueStripTrace [2] true).indexOf Event.lockAcquire <
        (queueStripTrace [2] true).indexOf Event.wlockAcquire) := by decide

/-- C1 amended: whenever an operation needs both locks it acquires the
working-directory lock (`wlock`) before the store lock — as §4.4 states and
as both `queue.strip` (mq.py 909-928) and `import_` (commands.py 2355-2382)
do — and at most one process holds each lock at a time (an acquisition of
the modelled lock succeeds only when no process holds it). -/
theorem C1_wlock_acquired_before_store_lock :
    (∀ revs update, (queueStripTrace revs update).indexOf Event.wlockAcquire <
        (queueStripTrace revs update).indexOf Event.lockAcquire) ∧
    (∀ hunks, (importTrace hunks).indexOf Event.wlockAcquire <
        (importTrace hunks).indexOf Event.lockAcquire) ∧
    (∀ holder me result, lockTryAcquire holder me = some result → holder = none) := by
  refine ⟨?_, ?_, ?_⟩
  · intro revs update
    obtain ⟨rest, h⟩ : ∃ rest, queueStripTrace revs update =
        Event.wlockAcquire :: Event.lockAcquire :: rest := ⟨_, rfl⟩
    rw [h, List.indexOf_cons_self, List.indexOf_cons_ne _ (by decide),
      List.indexOf_cons_self]
    exact Nat.zero_lt_one
  · intro hunks
    obtain ⟨rest, h⟩ : ∃ rest, importTrace hunks =
        Event.wlockAcquire :: Event.lockAcquire :: rest := ⟨_, rfl⟩
    rw [h, List.indexOf_cons_self, List.indexOf_cons_ne _ (by decide),
      List.indexOf_cons_self]
    exact Nat.zero_lt_one
  · intro holder me result h
    cases holder with
    | none => rfl
    | some _ => exact absurd h (by simp [lockTryAcquire])

/-- Witness for C1 amended at concrete inputs. -/
theorem C1_wlock_acquired_before_store_lock_witness :
    (queueStripTrace [2] true).indexOf Event.wlockAcquire <
      (queueStripTrace [2] true).indexOf Event.lockAcquire ∧
    lockTryAcquire none "pid:1234" = some (some "pid:1234") ∧
    (none : Option String) = none :=
  ⟨C1_wlock_acquired_before_store_lock.1 [2] true, rfl,
    C1_wlock_acquired_before_store_lock.2.2 none "pid:1234" (some "pid:1234") rfl⟩

theorem stripFold_ok : ∀ (revs : List Nat) (s : StripState),
    s.wlockHeld = true → s.lockHeld = true → s.ok = true →
    ((revs.map repairStripEvents).flatten.foldl stripStep s).wlockHeld = true ∧
    ((revs.map repairStripEvents).flatten.foldl stripStep s).lockHeld = true ∧
    ((revs.map repairStripEvents).flatten.foldl stripStep s).ok = true
  | [], s, hw, hl, hok => ⟨hw, hl, hok⟩
  | r :: rs, s, hw, hl, hok => by
    simp only [List.map_cons, List.flatten_cons, List.foldl_append,
      repairStripEvents, List.foldl_cons, List.foldl_nil]
    refine stripFold_ok rs _ ?_ ?_ ?_ <;>
      simp [stripStep, hw, hl, hok]

/-- C3: every strip operation (the embedded `queue.strip`) performs each
physical truncation while both the store lock and the working-directory lock
are held, and only after the removed revisions have been written to a backup
bundle: the checking interpreter accepts every `queue.strip` trace. -/
theorem C3_strip_backup_before_truncate_under_locks (revs : List Nat) (update : Bool) :
    stripCheck (queueStripTrace revs update) = true := by
  unfold stripCheck queueStripTrace
  cases update <;>
  · simp only [if_true, if_false, List.cons_append, List.nil_append,
      List.append_assoc, List.foldl_cons, List.foldl_append]
    have h := stripFold_ok revs ⟨true, true, [], true⟩ rfl rfl rfl
    simp only [stripStep] at h ⊢
    obtain ⟨-, -, hok⟩ := h
    simp [stripStep, hok]

/-- Witness for C3 at a concrete strip of revisions 5 and 7. -/
theorem C3_strip_backup_before_truncate_under_locks_witness :
    stripCheck (queueStripTrace [5, 7] true) = true :=
  C3_strip_backup_before_truncate_under_locks [5, 7] true

/-- C7 counterexample: the compression wrapper magic is not 4 bytes — the
recognised wrapper `HG10UN` is a 6-byte magic. -/
theorem C7_magic_not_four_bytes :
    bundletypes.contains "HG10UN" = true ∧ (bundleHeader "HG10UN").length ≠ 4 := by
  decide

/-- C7 amended: a changegroup bundle is wrapped in exactly one of the three
compression wrappers signaled by a 6-byte magic — `HG10UN` (uncompressed),
`HG10BZ` (bzip2), `HG10GZ` (gzip), with bzip2 the default — and the bundle
command aborts when any other compression type is requested. -/
theorem C7_bundle_wrappers :
    (∀ bt, bt ∈ bundletypes → (bundleHeader bt).length = 6) ∧
    bundletypes.Nodup ∧
    bundleCmd none = Except.ok "HG10BZ" ∧
    bundleCmd (some "none") = Except.ok "HG10UN" ∧
    bundleCmd (some "bzip2") = Except.ok "HG10BZ" ∧
    bundleCmd (some "gzip") = Except.ok "HG10GZ" ∧
    (∀ t, btypes (pyLower t) = none →
      bundleCmd (some t) = Except.error "unknown bundle type specified with --type") := by
  refine ⟨?_, by decide, rfl, rfl, rfl, rfl, ?_⟩
  · intro bt hbt
    simp only [bundletypes, List.mem_cons, List.not_mem_nil, or_false] at hbt
    rcases hbt with rfl | rfl | rfl <;> rfl
  · intro t ht
    unfold bundleCmd
    simp [ht]

/-- Witness for C7 amended at concrete inputs. -/
theorem C7_bundle_wrappers_witness :
    (bundleHeader "HG10GZ").length = 6 ∧
    bundleCmd (some "lzma") = Except.error "unknown bundle type specified with --type" :=
  ⟨C7_bundle_wrappers.1 "HG10GZ" (by decide),
    C7_bundle_wrappers.2.2.2.2.2.2 "lzma" (by decide)⟩

/-- C10: `commands.merge` invoked with no revision refuses (aborts, changing
nothing — the embedding is a pure function into `Except`) unless the current
branch has exactly two heads with the working-directory parent among them,
and in that case it picks the other head. -/
theorem C10_merge_needs_exactly_two_heads (bheads : List String) (n : Nat)
    (parent tip : String) :
    ((∃ x, mergeFindNode bheads n parent tip = Except.ok x) ↔
      bheads.length = 2 ∧ parent ∈ bheads) ∧
    (∀ h1 h2, h1 ≠ h2 →
      mergeFindNode [h1, h2] n h1 tip = Except.ok h2 ∧
      mergeFindNode [h1, h2] n h2 tip = Except.ok h1) := by
  constructor
  · constructor
    · rintro ⟨x, hx⟩
      by_cases hgt : bheads.length > 2
      · simp [mergeFindNode, hgt] at hx
      by_cases hone : bheads.length = 1
      · unfold mergeFindNode at hx
        rw [if_neg hgt, if_pos (by simp [hone])] at hx
        split_ifs at hx
      by_cases hmem : parent ∈ bheads
      · have hne : bheads ≠ [] := List.ne_nil_of_mem hmem
        have hpos : 0 < bheads.length := List.length_pos.mpr hne
        exact ⟨by omega, hmem⟩
      · unfold mergeFindNode at hx
        rw [if_neg hgt, if_neg (by simp [hone]), if_pos (by simp [hmem])] at hx
        simp at hx
    · rintro ⟨hlen, hmem⟩
      refine ⟨if parent == bheads.headD "" then bheads.getLastD "" else bheads.headD "", ?_⟩
      unfold mergeFindNode
      rw [if_neg (by omega), if_neg (by simp [hlen]), if_neg (by simp [hmem])]
  · intro h1 h2 hne
    constructor
    · unfold mergeFindNode
      simp [hne]
    · unfold mergeFindNode
      simp [hne, Ne.symm hne]

/-- Witness for C10 at concrete inputs. -/
theorem C10_merge_needs_exactly_two_heads_witness :
    mergeFindNode ["aaa", "bbb"] 2 "aaa" "tip" = Except.ok "bbb" ∧
    mergeFindNode ["aaa", "bbb"] 2 "bbb" "tip" = Except.ok "aaa" :=
  (C10_merge_needs_exactly_two_heads ["aaa", "bbb"] 2 "aaa" "tip").2 "aaa" "bbb"
    (by decide)

/-- C4 counterexample: a broken-pipe I/O error is caught by the dispatcher
(exit code -1, non-zero) but, with debugging off, is accompanied by NO
description at all — refuting "a non-zero code accompanied by a single-line
description for every error the dispatcher catches (… I/O errors)". -/
theorem C4_epipe_has_no_description :
    runcatch (Except.error HgErr.ioErrEpipe) false = ([], some (-1)) := rfl

/-- C4 amended: the exit code is 0 on success and 1 for the benign "nothing
changed"; every error the dispatcher catches returns the non-zero code -1,
accompanied by a single-line description — except a broken pipe (EPIPE),
which still returns -1 but prints its description only in debug mode.  The
theorem characterizes every catch arm of the embedded `_runcatch`: the two
universal clauses give the exit code and output presence of every arm
(`SystemExit` merely passes the command exit code through and the unmatched
IOError arm re-raises, so neither reports an error), and the per-arm
equalities give the character-exact output of each handler, including the
abort hint line, the ImportError compile hints, the CommandError and
UnknownCommand help output, and the three ResponseError shapes. -/
theorem C4_exit_codes_and_descriptions :
    (∀ code d, runcatch (Except.ok code) d = ([], some code)) ∧
    commitResult none = (["nothing changed\n"], 1) ∧
    (∀ node, commitResult (some node) = ([], 0)) ∧
    (∀ e d, (runcatch (Except.error e) d).2 = some (-1) ∨
      (∃ c, e = HgErr.systemExit c ∧ (runcatch (Except.error e) d).2 = some c) ∨
      (e = HgErr.ioErrOther ∧ (runcatch (Except.error e) d).2 = none)) ∧
    (∀ e d, (runcatch (Except.error e) d).1 = [] ↔
      (e = HgErr.ioErrEpipe ∧ d = false) ∨ e = HgErr.ioErrOther ∨
      ∃ c, e = HgErr.systemExit c) ∧
    (∀ msg d, runcatch (Except.error (HgErr.abort msg none)) d =
      (["abort: " ++ msg ++ "\n"], some (-1))) ∧
    (∀ msg hint d, runcatch (Except.error (HgErr.abort msg (some hint))) d =
      (["abort: " ++ msg ++ "\n", "(" ++ hint ++ ")\n"], some (-1))) ∧
    (∀ desc locker d, runcatch (Except.error (HgErr.lockHeld true desc locker)) d =
      (["abort: " ++ desc ++ ": " ++ ("timed out waiting for lock held by " ++ locker)
          ++ "\n"], some (-1))) ∧
    (∀ desc locker d, runcatch (Except.error (HgErr.lockHeld false desc locker)) d =
      (["abort: " ++ desc ++ ": " ++ ("lock held by " ++ locker) ++ "\n"],
        some (-1))) ∧
    (∀ desc s d, runcatch (Except.error (HgErr.lockUnavailable desc s)) d =
      (["abort: could not lock " ++ desc ++ ": " ++ s ++ "\n"], some (-1))) ∧
    (∀ msg d, runcatch (Except.error (HgErr.parseErr none msg)) d =
      (["hg: parse error: " ++ msg ++ "\n"], some (-1))) ∧
    (∀ l msg d, runcatch (Except.error (HgErr.parseErr (some l) msg)) d =
      (["hg: parse error at " ++ l ++ ": " ++ msg ++ "\n"], some (-1))) ∧
    (∀ msg d, runcatch (Except.error (HgErr.repoErr msg)) d =
      (["abort: " ++ msg ++ "!\n"], some (-1))) ∧
    (∀ msg d, runcatch (Except.error (HgErr.revlogErr msg)) d =
      (["abort: " ++ msg ++ "!\n"], some (-1))) ∧
    (∀ s d, runcatch (Except.error (HgErr.ioErrStrerror s none)) d =
      (["abort: " ++ s ++ "\n"], some (-1))) ∧
    (∀ s f d, runcatch (Except.error (HgErr.ioErrStrerror s (some f))) d =
      (["abort: " ++ s ++ ": " ++ f ++ "\n"], some (-1))) ∧
    (∀ msg d, runcatch (Except.error (HgErr.ioErrHttpCode msg)) d =
      (["abort: " ++ msg ++ "\n"], some (-1))) ∧
    (∀ r d, runcatch (Except.error (HgErr.ioErrReason r)) d =
      (["abort: error: " ++ r ++ "\n"], some (-1))) ∧
    runcatch (Except.error HgErr.ioErrEpipe) false = ([], some (-1)) ∧
    runcatch (Except.error HgErr.ioErrEpipe) true =
      (["broken pipe\n"], some (-1)) ∧
    (∀ cmd cands d, runcatch (Except.error (HgErr.ambiguousCommand cmd cands)) d =
      (["hg: command " ++ cmd ++ " is ambiguous:\n    " ++
          String.intercalate " " cands ++ "\n"], some (-1))) ∧
    (∀ msg d, runcatch (Except.error (HgErr.commandErr none msg)) d =
      (["hg: " ++ msg ++ "\n", helpMarker], some (-1))) ∧
    (∀ c msg d, runcatch (Except.error (HgErr.commandErr (some c) msg)) d =
      (["hg " ++ c ++ ": " ++ msg ++ "\n", helpMarker], some (-1))) ∧
    (∀ msg payload d, runcatch (Except.error (HgErr.responseErr msg false payload)) d =
      (["abort: " ++ msg, " " ++ payload ++ "\n"], some (-1))) ∧
    (∀ msg payload d, runcatch (Except.error (HgErr.responseErr msg true payload)) d =
      (["abort: " ++ msg,
        if payload == "" then " empty string\n"
        else "\n" ++ ellipsis payload ++ "\n"], some (-1))) ∧
    (∀ d, runcatch (Except.error HgErr.signalInterrupt) d =
      (["killed!\n"], some (-1))) ∧
    (∀ cmd d, runcatch (Except.error (HgErr.unknownCommand cmd)) d =
      (["hg: unknown command " ++ cmd ++ "\n", helpMarker], some (-1))) ∧
    (∀ msg d, runcatch (Except.error (HgErr.importErr msg)) d =
      (["abort: " ++ msg ++ "!\n"] ++
        (if ["mpatch", "bdiff"].contains ((pySplit msg).getLastD "") then
          ["(did you forget to compile extensions?)\n"]
        else if ["zlib"].contains ((pySplit msg).getLastD "") then
          ["(is your Python install correct?)\n"]
        else []), some (-1))) ∧
    (∀ s d, runcatch (Except.error (HgErr.osErr s none)) d =
      (["abort: " ++ s ++ "\n"], some (-1))) ∧
    (∀ s f d, runcatch (Except.error (HgErr.osErr s (some f))) d =
      (["abort: " ++ s ++ ": " ++ f ++ "\n"], some (-1))) ∧
    (∀ d, runcatch (Except.error HgErr.keyboardInterrupt) d =
      (["interrupted!\n"], some (-1))) ∧
    (∀ d, runcatch (Except.error HgErr.memoryErr) d =
      (["abort: out of memory\n"], some (-1))) ∧
    (∀ c d, runcatch (Except.error (HgErr.systemExit c)) d = ([], some c)) ∧
    (∀ d, runcatch (Except.error HgErr.ioErrOther) d = ([], none)) ∧
    (∀ msg d, runcatch (Except.error (HgErr.socketErr msg)) d =
      (["abort: " ++ msg ++ "\n"], some (-1))) := by
  repeat' apply And.intro
  all_goals try exact fun _ _ _ => rfl
  all_goals try exact fun _ _ => rfl
  all_goals try exact fun _ => rfl
  all_goals try exact rfl
  · intro e d
    cases e <;> try exact Or.inl rfl
    case parseErr loc msg => cases loc <;> exact Or.inl rfl
    case commandErr c msg => cases c <;> exact Or.inl rfl
    case responseErr m i p =>
      refine Or.inl ?_
      cases i
      · rfl
      · simp only [runcatch]
        split_ifs <;> rfl
    case abort m h => cases h <;> exact Or.inl rfl
    case ioErrEpipe => cases d <;> exact Or.inl rfl
    case ioErrStrerror st f => cases f <;> exact Or.inl rfl
    case ioErrOther => exact Or.inr (Or.inr ⟨rfl, rfl⟩)
    case osErr st f => cases f <;> exact Or.inl rfl
    case systemExit c => exact Or.inr (Or.inl ⟨c, rfl, rfl⟩)
  · intro e d
    cases e with
    | ambiguousCommand cmd cands => simp [runcatch]
    | parseErr loc msg => cases loc <;> simp [runcatch]
    | lockHeld t de lo => simp [runcatch]
    | lockUnavailable de st => simp [runcatch]
    | commandErr c msg => cases c <;> simp [runcatch]
    | repoErr m => simp [runcatch]
    | responseErr m i p =>
      cases i
      · simp [runcatch]
      · simp only [runcatch]
        split_ifs <;> simp
    | revlogErr m => simp [runcatch]
    | signalInterrupt => simp [runcatch]
    | unknownCommand c => simp [runcatch]
    | abort m h => cases h <;> simp [runcatch]
    | importErr m => simp [runcatch]
    | ioErrHttpCode m => simp [runcatch]
    | ioErrReason r => simp [runcatch]
    | ioErrEpipe => cases d <;> simp [runcatch]
    | ioErrStrerror st f => cases f <;> simp [runcatch]
    | ioErrOther => simp [runcatch]
    | osErr st f => cases f <;> simp [runcatch]
    | keyboardInterrupt => simp [runcatch]
    | memoryErr => simp [runcatch]
    | systemExit c => simp [runcatch]
    | socketErr m => simp [runcatch]
  · intro msg payload d
    simp only [runcatch]
    split_ifs <;> simp_all

/-- Witness for C4 at concrete errors. -/
theorem C4_exit_codes_and_descriptions_witness :
    runcatch (Except.ok 0) false = ([], some 0) ∧
    runcatch (Except.error (HgErr.abort "out of range" none)) false =
      (["abort: out of range\n"], some (-1)) ∧
    runcatch (Except.error (HgErr.abort "bad patch" (some "see hg help import"))) false =
      (["abort: bad patch\n", "(see hg help import)\n"], some (-1)) :=
  ⟨C4_exit_codes_and_descriptions.1 0 false,
    C4_exit_codes_and_descriptions.2.2.2.2.2.1 "out of range" false,
    C4_exit_codes_and_descriptions.2.2.2.2.2.2.1 "bad patch" "see hg help import"
      false⟩

theorem acquireLock_times_out (who desc : String) :
    ∀ remaining delay, acquireLock (some who) desc remaining delay =
      Except.error (HgErr.lockHeld true desc who) := by
  intro remaining
  induction remaining using Nat.strong_induction_on with
  | _ n ih =>
    intro delay
    rw [acquireLock]
    by_cases h : n = 0
    · subst h
      rfl
    · rw [if_neg (by simpa using h)]
      exact ih (n - max 1 delay) (by omega) (2 * delay)

/-- C5: when a lock stays held for the whole (spec-modelled) bounded retry,
acquisition surfaces the distinct lock-timeout error (`LockHeld` with
`errno == ETIMEDOUT`, distinct from the plain lock-held error), and the
dispatcher renders it as a message that carries the identity of the current
lock holder. -/
theorem C5_lock_timeout_names_holder (who desc : String) (remaining delay : Nat)
    (d : Bool) :
    acquireLock (some who) desc remaining delay =
      Except.error (HgErr.lockHeld true desc who) ∧
    HgErr.lockHeld true desc who ≠ HgErr.lockHeld false desc who ∧
    runcatch (Except.error (HgErr.lockHeld true desc who)) d =
      (["abort: " ++ desc ++ ": " ++ ("timed out waiting for lock held by " ++ who)
          ++ "\n"], some (-1)) ∧
    (∃ pre post, "abort: " ++ desc ++ ": " ++ ("timed out waiting for lock held by " ++ who)
        ++ "\n" = pre ++ who ++ post) ∧
    (runcatch (Except.error (HgErr.lockHeld true desc who)) d).1 ≠
      (runcatch (Except.error (HgErr.lockHeld false desc who)) d).1 := by
  refine ⟨acquireLock_times_out who desc remaining delay, by simp, rfl, ?_, ?_⟩
  · refine ⟨"abort: " ++ (desc ++ (": " ++ "timed out waiting for lock held by ")), "\n", ?_⟩
    simp only [String.append_assoc]
  · have e1 : (runcatch (Except.error (HgErr.lockHeld true desc who)) d).1 =
        ["abort: " ++ desc ++ ": " ++ ("timed out waiting for lock held by " ++ who)
          ++ "\n"] := rfl
    have e2 : (runcatch (Except.error (HgErr.lockHeld false desc who)) d).1 =
        ["abort: " ++ desc ++ ": " ++ ("lock held by " ++ who) ++ "\n"] := rfl
    rw [e1, e2]
    intro h
    simp only [List.cons.injEq, and_true] at h
    have hlen := congrArg String.length h
    simp only [String.length_append,
      show ("timed out waiting for lock held by ").length = 35 from rfl,
      show ("lock held by ").length = 13 from rfl] at hlen
    omega

/-- Witness for C5 at a concrete holder and timeout budget. -/
theorem C5_lock_timeout_names_holder_witness :
    acquireLock (some "host:1234") "repo .hg" 600 1 =
      Except.error (HgErr.lockHeld true "repo .hg" "host:1234") :=
  (C5_lock_timeout_names_holder "host:1234" "repo .hg" 600 1 false).1

/-- C6: the (spec-modelled) DAG `heads` are exactly the revisions with no
child, in descending revision order; on an empty repository `heads` is the
empty list and the embedded `--topo` path of the `heads` command prints
nothing and returns 1. -/
theorem C6_heads_no_child_descending (ps : ParentTable) (r : Nat) :
    (r ∈ dagHeads ps ↔ r < ps.length ∧ hasChild ps r = false) ∧
    (hasChild ps r = false ↔ ∀ pr ∈ ps, pr.1 ≠ some r ∧ pr.2 ≠ some r) ∧
    List.Sorted (· > ·) (dagHeads ps) ∧
    dagHeads ([] : ParentTable) = [] ∧
    headsCmd ([] : ParentTable) = ([], 1) := by
  refine ⟨?_, ?_, ?_, rfl, rfl⟩
  · simp only [dagHeads, List.mem_reverse, List.mem_filter, List.mem_range,
      Bool.not_eq_true']
  · simp [hasChild, not_or]
  · rw [dagHeads, List.Sorted, List.pairwise_reverse]
    exact (List.sorted_lt_range ps.length).filter _

/-- Witness for C6 at a concrete two-revision DAG (rev 1 is rev 0's child):
only rev 1 is a head. -/
theorem C6_heads_no_child_descending_witness :
    1 ∈ dagHeads [(none, none), (some 0, none)] ∧
    dagHeads [((none : Option Nat), (none : Option Nat)), (some 0, none)] = [1] :=
  ⟨(C6_heads_no_child_descending [(none, none), (some 0, none)] 1).1.mpr
      (by constructor <;> decide),
    by decide⟩

/-- C8: pushkey `push` has compare-and-swap semantics — it installs `new`
exactly when the key currently maps to `old`, touches no other key, reports
the outcome as a boolean, and `debugpushkey` returns 0 exactly when the push
succeeded. -/
theorem C8_pushkey_compare_and_swap (store : PushkeyStore) (ns key old new : String) :
    ((pushkeyPush store ns key old new).1 = true ↔ store ns key = some old) ∧
    ((pushkeyPush store ns key old new).1 = true →
      (pushkeyPush store ns key old new).2 ns key = some new) ∧
    ((pushkeyPush store ns key old new).1 = true →
      ∀ n k, ¬(n = ns ∧ k = key) →
        (pushkeyPush store ns key old new).2 n k = store n k) ∧
    ((pushkeyPush store ns key old new).1 = false →
      (pushkeyPush store ns key old new).2 = store) ∧
    ((debugpushkeyCmd store ns key old new).2.1 = 0 ↔
      (pushkeyPush store ns key old new).1 = true) := by
  unfold debugpushkeyCmd pushkeyPush
  by_cases h : store ns key = some old
  · refine ⟨by simp [h], by simp [h], ?_, by simp [h], by simp [h]⟩
    intro _ n k hnk
    simp only [h, beq_self_eq_true, if_true]
    simp only [ite_eq_right_iff, Bool.and_eq_true, beq_iff_eq, and_imp]
    exact fun hn hk => absurd ⟨hn, hk⟩ hnk
  · have hb : (store ns key == some old) = false := by
      simpa using h
    simp [hb, h]

/-- Witness for C8 at a concrete store holding `("phases","x") ↦ "0"`. -/
theorem C8_pushkey_compare_and_swap_witness :
    ((pushkeyPush (fun _ _ => some "0") "phases" "x" "0" "1").1 = true →
      (pushkeyPush (fun _ _ => some "0") "phases" "x" "0" "1").2 "phases" "x" = some "1") ∧
    (pushkeyPush (fun _ _ => some "0") "phases" "x" "0" "1").2 "phases" "x" = some "1" :=
  ⟨(C8_pushkey_compare_and_swap (fun _ _ => some "0") "phases" "x" "0" "1").2.1,
    (C8_pushkey_compare_and_swap (fun _ _ => some "0") "phases" "x" "0" "1").2.1 rfl⟩

theorem msLookup_cons (k : String) (v : RStatus) (rest : MergeState) (f : String) :
    msLookup ((k, v) :: rest) f = if k = f then some v else msLookup rest f := by
  unfold msLookup
  rw [List.find?_cons]
  by_cases h : k = f
  · simp [h]
  · simp [h, beq_eq_false_iff_ne.mpr h]

theorem msLookup_msMark (ms : MergeState) (g f : String) (s : RStatus) :
    msLookup (msMark ms g s) f =
      if g = f then (msLookup ms f).map (fun _ => s) else msLookup ms f := by
  induction ms with
  | nil => by_cases h : g = f <;> simp [msLookup, msMark, h]
  | cons p rest ih =>
    obtain ⟨k, v⟩ := p
    show msLookup ((if k == g then (k, s) else (k, v)) :: msMark rest g s) f = _
    by_cases hkg : k = g
    · rw [if_pos (beq_iff_eq.mpr hkg)]
      subst hkg
      rw [msLookup_cons, msLookup_cons]
      by_cases hkf : k = f
      · subst hkf
        simp
      · simp only [if_neg hkf]
        rw [ih]
        simp [hkf]
    · rw [if_neg (by simpa using hkg)]
      rw [msLookup_cons, msLookup_cons]
      by_cases hkf : k = f
      · have hgf : g ≠ f := fun h => hkg (by rw [hkf, h])
        simp [hkf, hgf]
      · simp only [if_neg hkf]
        exact ih

theorem resolveFold_resolved_only_by (m : String → Bool) (mode : ResolveMode)
    (toolOk : String → Bool) (f : String) :
    ∀ (fs : List String) (acc : MergeState × Nat),
      msLookup acc.1 f = some RStatus.unresolved →
      msLookup (fs.foldl (resolveStep m mode toolOk) acc).1 f =
        some RStatus.resolved →
      (mode = ResolveMode.markMode ∧ m f = true) ∨
      (mode = ResolveMode.remergeMode ∧ m f = true ∧ toolOk f = true)
  | [], acc, hu, hr => by
    rw [List.foldl_nil] at hr
    rw [hu] at hr
    cases hr
  | g :: fs, acc, hu, hr => by
    rw [List.foldl_cons] at hr
    by_cases hmg : m g = true
    case neg =>
      have hstep : resolveStep m mode toolOk acc g = acc := by
        simp [resolveStep, hmg]
      rw [hstep] at hr
      exact resolveFold_resolved_only_by m mode toolOk f fs acc hu hr
    case pos =>
      cases mode with
      | markMode =>
        by_cases hgf : g = f
        · exact Or.inl ⟨rfl, hgf ▸ hmg⟩
        · have hstep : resolveStep m ResolveMode.markMode toolOk acc g =
              (msMark acc.1 g RStatus.resolved, acc.2) := by
            simp [resolveStep, hmg]
          rw [hstep] at hr
          have hu2 : msLookup (msMark acc.1 g RStatus.resolved) f =
              some RStatus.unresolved := by
            rw [msLookup_msMark]
            simp [hgf, hu]
          exact resolveFold_resolved_only_by m ResolveMode.markMode toolOk f fs
            (msMark acc.1 g RStatus.resolved, acc.2) hu2 hr
      | unmarkMode =>
        have hstep : resolveStep m ResolveMode.unmarkMode toolOk acc g =
            (msMark acc.1 g RStatus.unresolved, acc.2) := by
          simp [resolveStep, hmg]
        rw [hstep] at hr
        have hu2 : msLookup (msMark acc.1 g RStatus.unresolved) f =
            some RStatus.unresolved := by
          rw [msLookup_msMark]
          by_cases hgf : g = f <;> simp [hgf, hu]
        exact resolveFold_resolved_only_by m ResolveMode.unmarkMode toolOk f fs
          (msMark acc.1 g RStatus.unresolved, acc.2) hu2 hr
      | remergeMode =>
        by_cases hgf : g = f
        · subst hgf
          by_cases htool : toolOk g = true
          · exact Or.inr ⟨rfl, hmg, htool⟩
          · have htoolf : toolOk g = false := by simpa using htool
            have hres : msResolve toolOk acc.1 g = (acc.1, 1) := by
              rw [msResolve, hu]
              simp [htoolf]
            have hstep : resolveStep m ResolveMode.remergeMode toolOk acc g =
                (acc.1, 1) := by
              simp [resolveStep, hmg, hres]
            rw [hstep] at hr
            exact resolveFold_resolved_only_by m ResolveMode.remergeMode toolOk g fs
              (acc.1, 1) hu hr
        · have hpreserve : msLookup (msResolve toolOk acc.1 g).1 f =
              msLookup acc.1 f := by
            rw [msResolve]
            cases hg : msLookup acc.1 g with
            | none =>
              cases htool : toolOk g <;>
                simp [htool, msLookup_msMark, hgf]
            | some st =>
              cases st with
              | unresolved =>
                cases htool : toolOk g <;>
                  simp [htool, msLookup_msMark, hgf]
              | resolved => simp
          have hstep : (fs.foldl (resolveStep m ResolveMode.remergeMode toolOk)
              (resolveStep m ResolveMode.remergeMode toolOk acc g)).1 =
              (fs.foldl (resolveStep m ResolveMode.remergeMode toolOk)
                ((msResolve toolOk acc.1 g).1,
                  if (msResolve toolOk acc.1 g).2 != 0 then 1 else acc.2)).1 := by
            simp [resolveStep, hmg]
          rw [hstep] at hr
          have hu2 : msLookup ((msResolve toolOk acc.1 g).1,
              if (msResolve toolOk acc.1 g).2 != 0 then 1 else acc.2).1 f =
              some RStatus.unresolved := by
            simpa [hpreserve] using hu
          exact resolveFold_resolved_only_by m ResolveMode.remergeMode toolOk f fs
            _ hu2 hr

/-- C2: in the embedded `resolve` command, a path recorded `unresolved` in
the mergestate ends up `resolved` only if the command either explicitly
marked it (`resolve -m` on a matched path) or re-ran the merge tool on it
successfully; and while any path is unresolved, the (spec-modelled) commit
gate refuses. -/
theorem C2_unresolved_becomes_resolved_only_by_tool_or_mark
    (m : String → Bool) (mode : ResolveMode) (toolOk : String → Bool)
    (ms : MergeState) (f : String) :
    (msLookup ms f = some RStatus.unresolved →
      msLookup (resolveCmd m mode toolOk ms).1 f = some RStatus.resolved →
      (mode = ResolveMode.markMode ∧ m f = true) ∨
      (mode = ResolveMode.remergeMode ∧ m f = true ∧ toolOk f = true)) ∧
    ((∃ g, (g, RStatus.unresolved) ∈ ms) → commitAllowed ms = false) := by
  constructor
  · intro hu hr
    exact resolveFold_resolved_only_by m mode toolOk f (ms.map Prod.fst) (ms, 0) hu hr
  · rintro ⟨g, hg⟩
    simp only [commitAllowed, Bool.not_eq_false', List.any_eq_true]
    exact ⟨(g, RStatus.unresolved), hg, rfl⟩

/-- Witness for C2: in a one-file mergestate where `z` is unresolved,
`resolve -m` over a match-all pattern resolves it, and the theorem then pins
the mark mode; commit is refused on the unresolved state. -/
theorem C2_unresolved_becomes_resolved_only_by_tool_or_mark_witness :
    ((ResolveMode.markMode = ResolveMode.markMode ∧
        (fun _ : String => true) "z" = true) ∨
      (ResolveMode.markMode = ResolveMode.remergeMode ∧
        (fun _ : String => true) "z" = true ∧
        (fun _ : String => false) "z" = true)) ∧
    commitAllowed [("z", RStatus.unresolved)] = false :=
  ⟨(C2_unresolved_becomes_resolved_only_by_tool_or_mark (fun _ => true)
      ResolveMode.markMode (fun _ => false) [("z", RStatus.unresolved)] "z").1 rfl rfl,
    (C2_unresolved_becomes_resolved_only_by_tool_or_mark (fun _ => true)
      ResolveMode.markMode (fun _ => false) [("z", RStatus.unresolved)] "z").2
      ⟨"z", by simp⟩⟩

theorem aclCheckFiles_ok_iff (deny allow : Option (String → Bool)) (user : String) :
    ∀ fs : List String, aclCheckFiles deny allow user fs = Except.ok () ↔
      ∀ f ∈ fs, optMatches deny f = false ∧ ∀ a, allow = some a → a f = true
  | [] => by simp [aclCheckFiles]
  | f :: fs => by
    rw [aclCheckFiles.eq_def]
    simp only []
    by_cases h1 : optMatches deny f = true
    · simp [h1]
    · have h1f : optMatches deny f = false := by simpa using h1
      rw [if_neg h1]
      by_cases h2 : (match allow with | some a => !(a f) | none => false) = true
      · cases ha : allow with
        | none => rw [ha] at h2; simp at h2
        | some a =>
          rw [ha] at h2
          simp only [Bool.not_eq_true'] at h2
          rw [if_pos (by simp [h2])]
          simp [ha, h2]
      · rw [if_neg h2]
        rw [aclCheckFiles_ok_iff deny allow user fs]
        constructor
        · intro hrest
          refine fun f2 hf2 => ?_
          rcases List.mem_cons.mp hf2 with rfl | hf2t
          · refine ⟨h1f, fun a ha => ?_⟩
            rw [ha] at h2
            simpa using h2
          · exact hrest f2 hf2t
        · intro hall f2 hf2
          exact hall f2 (List.mem_cons_of_mem f hf2)

theorem aclCheckCtx_ok_iff (denyB allowB deny allow : Option (String → Bool))
    (user : String) (ctx : Ctx) :
    aclCheckCtx denyB allowB deny allow user ctx = Except.ok () ↔
      optMatches denyB ctx.branch = false ∧
      (∀ a, allowB = some a → a ctx.branch = true) ∧
      ∀ f ∈ ctx.files, optMatches deny f = false ∧ ∀ a, allow = some a → a f = true := by
  rw [aclCheckCtx.eq_def]
  by_cases h1 : optMatches denyB ctx.branch = true
  · simp [h1]
  · have h1f : optMatches denyB ctx.branch = false := by simpa using h1
    rw [if_neg h1]
    by_cases h2 : (match allowB with | some a => !(a ctx.branch) | none => false) = true
    · cases ha : allowB with
      | none => rw [ha] at h2; simp at h2
      | some a =>
        rw [ha] at h2
        simp only [Bool.not_eq_true'] at h2
        rw [if_pos (by simp [h2])]
        simp [ha, h2]
    · rw [if_neg h2]
      rw [aclCheckFiles_ok_iff]
      constructor
      · intro hfiles
        refine ⟨h1f, fun a ha => ?_, hfiles⟩
        rw [ha] at h2
        simpa using h2
      · rintro ⟨-, -, hfiles⟩
        exact hfiles

theorem aclCheckRevs_ok_iff (denyB allowB deny allow : Option (String → Bool))
    (user : String) :
    ∀ ctxs : List Ctx, aclCheckRevs denyB allowB deny allow user ctxs = Except.ok () ↔
      ∀ ctx ∈ ctxs,
        optMatches denyB ctx.branch = false ∧
        (∀ a, allowB = some a → a ctx.branch = true) ∧
        ∀ f ∈ ctx.files, optMatches deny f = false ∧ ∀ a, allow = some a → a f = true
  | [] => by simp [aclCheckRevs]
  | ctx :: ctxs => by
    rw [aclCheckRevs]
    cases hctx : aclCheckCtx denyB allowB deny allow user ctx with
    | ok u =>
      obtain rfl : u = () := rfl
      rw [aclCheckRevs_ok_iff denyB allowB deny allow user ctxs]
      have hc := (aclCheckCtx_ok_iff denyB allowB deny allow user ctx).mp hctx
      constructor
      · intro hrest c hc2
        rcases List.mem_cons.mp hc2 with rfl | hc2t
        · exact hc
        · exact hrest c hc2t
      · intro hall c hc2
        exact hall c (List.mem_cons_of_mem ctx hc2)
    | error e =>
      constructor
      · intro h
        cases h
      · intro hall
        have hc := (aclCheckCtx_ok_iff denyB allowB deny allow user ctx).mpr
          (hall ctx (List.mem_cons_self ctx ctxs))
        rw [hctx] at hc
        cases hc

/-- C9: for every incoming changeset the acl hook checks, in order,
deny-branches, allow-branches, then per touched file deny-paths and
allow-paths, aborting at the first denial; it accepts exactly when every
check passes for every file of every changeset; a `'*'` user entry matches
every user; and the hook is the matcher construction followed by this check. -/
theorem C9_acl_hook_order_and_acceptance :
    (∀ gu user, usermatch gu user "*" = Except.ok true) ∧
    (∀ denyB allowB deny allow user ctxs,
      aclCheckRevs denyB allowB deny allow user ctxs = Except.ok () ↔
      ∀ ctx ∈ ctxs,
        optMatches denyB ctx.branch = false ∧
        (∀ a, allowB = some a → a ctx.branch = true) ∧
        ∀ f ∈ ctx.files, optMatches deny f = false ∧
          ∀ a, allow = some a → a f = true) ∧
    (∀ denyB allowB deny allow user ctx,
      optMatches denyB ctx.branch = true →
      aclCheckCtx denyB allowB deny allow user ctx =
        Except.error (AclErr.branchDeny user ctx.branch)) ∧
    (∀ denyB allowB deny allow user ctx a,
      optMatches denyB ctx.branch = false → allowB = some a →
      a ctx.branch = false →
      aclCheckCtx denyB allowB deny allow user ctx =
        Except.error (AclErr.branchNotAllowed user ctx.branch)) ∧
    (∀ deny allow user f rest,
      optMatches deny f = true →
      aclCheckFiles deny allow user (f :: rest) =
        Except.error (AclErr.fileDeny user f)) ∧
    (∀ deny allow user f rest a,
      optMatches deny f = false → allow = some a → a f = false →
      aclCheckFiles deny allow user (f :: rest) =
        Except.error (AclErr.fileNotAllowed user f)) ∧
    (∀ groups osGroups patMatch user aS dS allowS denyS ctxs mA mD mAllow mDeny,
      buildmatchBranch (aclGetusers groups osGroups) user aS = Except.ok mA →
      buildmatchBranch (aclGetusers groups osGroups) user dS = Except.ok mD →
      buildmatchFile (aclGetusers groups osGroups) user patMatch allowS =
        Except.ok mAllow →
      buildmatchFile (aclGetusers groups osGroups) user patMatch denyS =
        Except.ok mDeny →
      aclHook groups osGroups patMatch user aS dS allowS denyS ctxs =
        aclCheckRevs mD mA mDeny mAllow user ctxs) := by
  refine ⟨?_, aclCheckRevs_ok_iff, ?_, ?_, ?_, ?_, ?_⟩
  · intro gu user
    rw [usermatch]
    simp
  · intro denyB allowB deny allow user ctx h
    rw [aclCheckCtx.eq_def, if_pos h]
  · intro denyB allowB deny allow user ctx a h1 ha h2
    rw [aclCheckCtx.eq_def, if_neg (by simp [h1]), if_pos (by rw [ha]; simp [h2])]
  · intro deny allow user f rest h
    rw [aclCheckFiles.eq_def]
    simp only []
    rw [if_pos h]
  · intro deny allow user f rest a h1 ha h2
    rw [aclCheckFiles.eq_def]
    simp only []
    rw [if_neg (by simp [h1]), if_pos (by rw [ha]; simp [h2])]
  · intro groups osGroups patMatch user aS dS allowS denyS ctxs mA mD mAllow mDeny
      h1 h2 h3 h4
    simp only [aclHook]
    rw [h1, h2, h3, h4]
    rfl

/-- Witness for C9 at concrete matchers and changesets: a changeset on a
denied branch is rejected with the branch-deny error before any other list
is consulted, the wildcard matches a concrete user, and the hook on an
absent configuration accepts an empty changegroup. -/
theorem C9_acl_hook_order_and_acceptance_witness :
    usermatch (fun _ => Except.ok []) "alice" "*" = Except.ok true ∧
    aclCheckCtx (some (fun b => b == "secret")) none none none "bob"
        ⟨"secret", ["f"]⟩ =
      Except.error (AclErr.branchDeny "bob" "secret") ∧
    aclHook (fun _ => []) (fun _ => none) (fun _ _ => false) "carol"
        none none none none [] =
      aclCheckRevs none none none none "carol" [] :=
  ⟨C9_acl_hook_order_and_acceptance.1 (fun _ => Except.ok []) "alice",
    C9_acl_hook_order_and_acceptance.2.2.1 (some (fun b => b == "secret"))
      none none none "bob" ⟨"secret", ["f"]⟩ rfl,
    C9_acl_hook_order_and_acceptance.2.2.2.2.2.2 (fun _ => []) (fun _ => none)
      (fun _ _ => false) "carol" none none none none [] none none none none
      rfl rfl rfl rfl⟩

end Hg
